import Mathlib

/-!
Shallow embedding of `src/download_docs.py` and `src/search.py` from the
polecat-api-example repository, together with theorems settling the frozen
claims about the API client retry loop, the paginated document fetcher, the
denormalizing CSV writer, and the company/taxonomy search helpers.

Modelling conventions:
* Scalar JSON values carried through to CSV output (ids, timestamps, scores)
  are modelled by their string rendering: none of the verified properties
  computes on them, only copies and compares them.
* The network is modelled as an environment function `Nat → ReqOutcome α`
  giving the outcome of the i-th HTTP request of a retry loop, or a list of
  successive successful response payloads for a pagination loop.  The query
  string and variables dictionary are held fixed by the code across retries
  and do not influence control flow, so they are dropped from the model; the
  `after` cursor mutation in the pagination loops likewise only changes what
  the server is asked for, never the control flow, so it is absorbed into the
  response sequence.
* Python's `int(x)` on the Retry-After header is modelled by the decimal
  parser `strToInt?` (optional sign, then decimal digits; raising `TypeError`
  on `None`, `ValueError` on a non-integer string); the divergences
  (whitespace, underscores) are not touched by any claim.
* Python's `str.lower` is modelled by per-character `Char.toLower` (`lower`),
  which agrees with it on ASCII.
-/

namespace Polecat

/-- `urllib.error.HTTPError`: url, status code, message, headers and the
response body file object `fp`. -/
structure HTTPError where
  url : String
  code : Nat
  msg : String
  hdrs : List (String × String)
  fp : String
deriving DecidableEq

/-- Exceptions that can escape `Client.execute_query_with_retries`. -/
inductive PyExc where
  /-- an `HTTPError` raised or re-raised -/
  | http (e : HTTPError)
  /-- `int(None)` when the Retry-After header is absent -/
  | typeError
  /-- `int(s)` when `s` is not an integer string -/
  | valueError
  /-- a transport exception that is not an `HTTPError` (e.g. `URLError`),
  not caught by the `except HTTPError` clause -/
  | otherTransport (tag : String)
deriving DecidableEq

/-- Outcome of one HTTP round trip of `Client.execute_query`. -/
inductive ReqOutcome (α : Type) where
  /-- the request succeeded and the parsed JSON body is `r` -/
  | success (r : α)
  /-- `urlopen` raised an `HTTPError` -/
  | httpErr (e : HTTPError)
  /-- `urlopen` raised a non-`HTTPError` exception -/
  | otherErr (tag : String)
deriving DecidableEq

/-- `Client._max_retries_msg`. -/
def maxRetriesMsg : String := "Maximum number of retries exceeded"

/-- The retry-relevant part of the client configuration
(`Client.max_retry_wait`, `Client.max_retries`). -/
structure Config where
  max_retry_wait : Int
  max_retries : Nat
deriving DecidableEq

/-- Python `str.lower()`, per character (agrees with it on ASCII). -/
def lower (s : String) : String := ⟨s.data.map Char.toLower⟩

/-- The value of a nonempty decimal digit sequence, `none` if empty or any
character is not a digit. -/
def decDigits? (cs : List Char) : Option Nat :=
  cs.foldl (fun acc c =>
    match acc, c.isDigit with
    | some n, true => some (n * 10 + (c.toNat - 48))
    | _, _ => none) (if cs.isEmpty then none else some 0)

/-- Python `int(s)` on a string: an optional sign followed by decimal
digits. -/
def strToInt? (s : String) : Option Int :=
  match s.data with
  | '-' :: cs => (decDigits? cs).map (fun n => -(n : Int))
  | '+' :: cs => (decDigits? cs).map (fun n => (n : Int))
  | cs => (decDigits? cs).map (fun n => (n : Int))

/-- `err.headers.get(key)`: HTTP message header lookup, case-insensitive. -/
def headersGet (hdrs : List (String × String)) (key : String) : Option String :=
  (hdrs.find? (fun p => lower p.1 == lower key)).map (·.2)

/-- Python `int(x)` applied to the result of `headers.get("Retry-After")`:
`TypeError` on `None`, `ValueError` on a non-integer string. -/
def pyInt (x : Option String) : Except PyExc Int :=
  match x with
  | none => .error .typeError
  | some s =>
    match strToInt? s with
    | none => .error .valueError
    | some n => .ok n

/-- The `HTTPError` raised on retry exhaustion:
`HTTPError(err.url, err.code, self._max_retries_msg, err.hdrs, err.fp)`. -/
def maxRetriesError (e : HTTPError) : HTTPError :=
  { url := e.url, code := e.code, msg := maxRetriesMsg, hdrs := e.hdrs, fp := e.fp }

instance {ε α : Type} [DecidableEq ε] [DecidableEq α] : DecidableEq (Except ε α) :=
  fun x y =>
    match x, y with
    | .ok a, .ok b =>
      if h : a = b then .isTrue (by rw [h]) else .isFalse (fun hc => h (by cases hc; rfl))
    | .ok _, .error _ => .isFalse (fun hc => Except.noConfusion hc)
    | .error _, .ok _ => .isFalse (fun hc => Except.noConfusion hc)
    | .error e, .error f =>
      if h : e = f then .isTrue (by rw [h]) else .isFalse (fun hc => h (by cases hc; rfl))

/-- Observable result of one call to `execute_query_with_retries`: the value
returned or exception raised, the sequence of `sleep` durations performed (in
order), and the number of requests issued. -/
structure RunResult (α : Type) where
  result : Except PyExc α
  sleeps : List Int
  requests : Nat
deriving DecidableEq

/-- The body of `Client.execute_query_with_retries`'s `for attempt in
range(self.max_retries + 1)` loop, from iteration `attempt` on.  `remaining`
maintains the invariant `remaining = cfg.max_retries - attempt`, so the code's
`attempt == self.max_retries` test is the `remaining = 0` case.  `sleeps`
accumulates the durations slept so far. -/
def retryFrom {α : Type} (cfg : Config) (outcomes : Nat → ReqOutcome α) :
    Nat → Nat → List Int → RunResult α
  | attempt, remaining, sleeps =>
    match outcomes attempt with
    | .success r => ⟨.ok r, sleeps, attempt + 1⟩
    | .otherErr tag => ⟨.error (.otherTransport tag), sleeps, attempt + 1⟩
    | .httpErr e =>
      if e.code ≠ 429 then ⟨.error (.http e), sleeps, attempt + 1⟩
      else
        match pyInt (headersGet e.hdrs "Retry-After") with
        | .error exc => ⟨.error exc, sleeps, attempt + 1⟩
        | .ok w =>
          let wait := min w cfg.max_retry_wait
          match remaining with
          | 0 => ⟨.error (.http (maxRetriesError e)), sleeps, attempt + 1⟩
          | remaining' + 1 =>
            retryFrom cfg outcomes (attempt + 1) remaining' (sleeps ++ [wait])

/-- `Client.execute_query_with_retries(query, variables)` run against the
request environment `outcomes`. -/
def execute_query_with_retries {α : Type} (cfg : Config)
    (outcomes : Nat → ReqOutcome α) : RunResult α :=
  retryFrom cfg outcomes 0 cfg.max_retries []

/-- A request environment reports a well-formed 429 rate-limit response at
index `i`, with error object `es i` whose Retry-After header parses to the
integer `w i`. -/
@[reducible] def RateLimited {α : Type} (outcomes : Nat → ReqOutcome α)
    (es : Nat → HTTPError) (w : Nat → Int) (i : Nat) : Prop :=
  outcomes i = .httpErr (es i) ∧ (es i).code = 429 ∧
    pyInt (headersGet (es i).hdrs "Retry-After") = .ok (w i)

/-! ## Data model of the document query response (`get_documents`) -/

/-- One element of a GraphQL `errors` list; the fetch loop reads only
`e["message"]`, so the error object is modelled by that field. -/
structure GError where
  message : String
deriving DecidableEq

/-- `pageInfo { endCursor hasNextPage }`. -/
structure PageInfo where
  endCursor : Option String
  hasNextPage : Bool
deriving DecidableEq

/-- `company { id name }`, also the node shape of the companies search. -/
structure Company where
  id : String
  name : String
deriving DecidableEq

/-- One entry of a document's `companies` relation. -/
structure CompanyRel where
  company : Company
  significance : String
deriving DecidableEq

/-- `topic { id name }`. -/
structure Topic where
  id : String
  name : String
deriving DecidableEq

/-- One entry of a document's `topics` relation. -/
structure TopicRel where
  topic : Topic
  significance : String
deriving DecidableEq

/-- A document node of the `documents` query.  Scalar fields are modelled by
their string rendering (see the header comment). -/
structure Document where
  id : String
  harvestTime : String
  title : String
  domain : String
  url : String
  source : String
  publisher : String
  reach : String
  sentiment : String
  author : String
  companies : List CompanyRel
  topics : List TopicRel
deriving DecidableEq

/-- One element of `data["documents"]["edges"]`. -/
structure DocEdge where
  node : Document
deriving DecidableEq

/-- `data["documents"]`. -/
structure DocConnection where
  edges : List DocEdge
  pageInfo : PageInfo
deriving DecidableEq

/-- The `data` payload of a documents-query response. -/
structure DocsData where
  documents : DocConnection
deriving DecidableEq

/-- A parsed documents-query response body: `response.get("errors")` and
`response.get("data")`. -/
structure DocsResponse where
  errors : Option (List GError)
  data : Option DocsData
deriving DecidableEq

/-- How a run of the `get_documents` generator ended. -/
inductive FetchStatus where
  /-- the generator was exhausted normally (`break`, or `hasNextPage` false) -/
  | finished
  /-- the generator raised `Exception(graphql_err)`; it carries the
  `"\n  "`-joined message strings and the raw `errors` payload whose JSON
  dump the raised message embeds -/
  | graphqlError (joined : String) (raw : List GError)
  /-- model artifact: the environment list ran out while the loop wanted
  another page -/
  | outOfResponses
deriving DecidableEq

/-- `"\n  ".join([e["message"] for e in err])`. -/
def joinMessages (errs : List GError) : String :=
  String.intercalate "\n  " (errs.map (·.message))

/-- `get_documents(client, insight)` run to exhaustion against the sequence
`responses` of values returned by its successive
`client.execute_query_with_retries` calls, producing the yielded batches and
how iteration ended.  The `after` cursor written into `variables` only
changes what the server is asked for, never the loop's control flow, so it is
absorbed into the response sequence. -/
def get_documents : List DocsResponse → List (List Document) × FetchStatus
  | [] => ([], .outOfResponses)
  | r :: rest =>
    match r.errors with
    | some errs => ([], .graphqlError (joinMessages errs) errs)
    | none =>
      match r.data with
      | none => ([], .finished)
      | some d =>
        let batch := d.documents.edges.map (·.node)
        if d.documents.pageInfo.hasNextPage then
          let next := get_documents rest
          (batch :: next.1, next.2)
        else
          ([batch], .finished)

/-- The batch of document nodes a response's page carries (empty when the
response has no `data`). -/
def pageBatch (r : DocsResponse) : List Document :=
  match r.data with
  | some d => d.documents.edges.map (·.node)
  | none => []

/-- The `hasNextPage` flag of a response's page (false when it has no
`data`). -/
@[reducible] def pageHasNext (r : DocsResponse) : Bool :=
  match r.data with
  | some d => d.documents.pageInfo.hasNextPage
  | none => false

/-- A non-final page response: no errors, a `data` payload, and
`hasNextPage` true. -/
@[reducible] def MidPage (r : DocsResponse) : Prop :=
  r.errors = none ∧ r.data.isSome = true ∧ pageHasNext r = true

/-- A final page response: no errors, a `data` payload, and `hasNextPage`
false. -/
@[reducible] def LastPage (r : DocsResponse) : Prop :=
  r.errors = none ∧ r.data.isSome = true ∧ pageHasNext r = false

/-! ## The denormalizing CSV writer (`write_docs`) -/

/-- `doc_base`: the shared leading columns. -/
def doc_base (doc : Document) : List String :=
  [doc.id, doc.harvestTime, doc.sentiment, doc.reach]

/-- The row `docs_writer.writerow(...)` appends to `documents.csv`. -/
def docsRow (doc : Document) : List String :=
  doc_base doc ++
    [doc.publisher, doc.domain, doc.source, doc.author, doc.url, doc.title]

/-- The rows appended to `documents_denormalised.csv` for one document: for
each company relation whose company id equals the focus id, one row per
topic. -/
def denormRows (doc : Document) (focus_id : String) : List (List String) :=
  doc.companies.flatMap (fun company =>
    if company.company.id == focus_id then
      doc.topics.map (fun topic =>
        doc_base doc ++
          [company.company.id, company.company.name, company.significance,
           topic.topic.id, topic.topic.name, topic.significance])
    else [])

/-- The rows appended to `documents_companies.csv` for one document: one row
per company relation whose company id equals the focus id. -/
def compRows (doc : Document) (focus_id : String) : List (List String) :=
  doc.companies.flatMap (fun company =>
    if company.company.id == focus_id then
      [[doc.id, company.company.id, company.company.name,
        company.significance]]
    else [])

/-- The rows appended to `documents_topics.csv` for one document: one row per
topic relation, unfiltered. -/
def topsRows (doc : Document) : List (List String) :=
  doc.topics.map (fun topic =>
    [doc.id, topic.topic.id, topic.topic.name, topic.significance])

/-- The rows `write_docs` appends to each of the four CSV files. -/
structure CsvOutput where
  docs : List (List String)
  denorm : List (List String)
  comps : List (List String)
  tops : List (List String)
deriving DecidableEq

/-- `write_docs(documents, focus_id)`: per file, the concatenation over the
batch of each document's rows (the code writes one document's rows to all
four files before moving to the next; per file that interleaving is exactly
this concatenation). -/
def write_docs (documents : List Document) (focus_id : String) : CsvOutput :=
  { docs := documents.map docsRow
    denorm := documents.flatMap (denormRows · focus_id)
    comps := documents.flatMap (compRows · focus_id)
    tops := documents.flatMap topsRows }

/-- A row carries all four of a document's core fields (id, harvest time,
sentiment, reach). -/
@[reducible] def rowHasCoreFields (d : Document) (row : List String) : Prop :=
  d.id ∈ row ∧ d.harvestTime ∈ row ∧ d.sentiment ∈ row ∧ d.reach ∈ row

/-- The claim predicate of C7, as stated: every row of every one of the four
tables carries the core fields of some originating document of the batch. -/
@[reducible] def allRowsShareCoreFields (documents : List Document)
    (focus_id : String) : Prop :=
  ∀ table ∈ [(write_docs documents focus_id).docs,
             (write_docs documents focus_id).denorm,
             (write_docs documents focus_id).comps,
             (write_docs documents focus_id).tops],
    ∀ row ∈ table, ∃ d ∈ documents, rowHasCoreFields d row

/-! ## The lookup queries (`src/search.py`) -/

/-- One element of `response["data"]["companies"]["edges"]`. -/
structure CompEdge where
  node : Company
deriving DecidableEq

/-- `response["data"]["companies"]`. -/
structure CompConnection where
  edges : List CompEdge
  pageInfo : PageInfo
deriving DecidableEq

/-- The `data` payload of a companies-search response. -/
structure CompData where
  companies : CompConnection
deriving DecidableEq

/-- A parsed companies-search response body.  The code never reads the
`errors` key of this response; it is carried in the model to express exactly
that. -/
structure CompResponse where
  errors : Option (List GError)
  data : Option CompData
deriving DecidableEq

/-- The `{"best": [...], "all": [...]}` accumulator of (name, id) pairs. -/
structure MatchSet where
  best : List (String × String)
  all : List (String × String)
deriving DecidableEq

/-- How a search run ended. -/
inductive SearchOutcome where
  /-- the function returned the accumulated match set -/
  | ok (m : MatchSet)
  /-- `response["data"]` / the nested subscripts raised (`KeyError` on a
  missing key, `TypeError` on a null value): the `data` payload is absent -/
  | dataAccessError
  /-- model artifact: the environment list ran out while the loop wanted
  another page -/
  | outOfResponses
deriving DecidableEq

/-- The body of `search_companies`'s `for company in ... edges` loop: append
the pair to `all`, and also to `best` when the names agree
case-insensitively. -/
def addCompany (search : String) (acc : MatchSet) (c : CompEdge) : MatchSet :=
  let acc1 : MatchSet := { acc with all := acc.all ++ [(c.node.name, c.node.id)] }
  if lower c.node.name == lower search then
    { acc1 with best := acc1.best ++ [(c.node.name, c.node.id)] }
  else acc1

/-- The `while next_page` loop of `search_companies(client, name)`, run
against the sequence of values returned by its successive
`client.execute_query_with_retries` calls, starting from accumulator
`acc`. -/
def searchCompaniesLoop (search : String) :
    List CompResponse → MatchSet → SearchOutcome
  | [], _ => .outOfResponses
  | r :: rest, acc =>
    match r.data with
    | none => .dataAccessError
    | some d =>
      let acc1 := d.companies.edges.foldl (addCompany search) acc
      if d.companies.pageInfo.hasNextPage then
        searchCompaniesLoop search rest acc1
      else
        .ok acc1

/-- `search_companies(client, name)`: the loop started from the empty
`{"best": [], "all": []}` accumulator. -/
def search_companies (search : String) (responses : List CompResponse) :
    SearchOutcome :=
  searchCompaniesLoop search responses ⟨[], []⟩

/-- All company nodes a sequence of responses returns, across pages, in
order. -/
def companyNodes (responses : List CompResponse) : List Company :=
  responses.flatMap (fun r =>
    match r.data with
    | some d => d.companies.edges.map (·.node)
    | none => [])

/-- Projection of the returned `best` list (empty when the run failed). -/
def outcomeBest : SearchOutcome → List (String × String)
  | .ok m => m.best
  | _ => []

/-- Projection of the returned `all` list (empty when the run failed). -/
def outcomeAll : SearchOutcome → List (String × String)
  | .ok m => m.all
  | _ => []

/-- The `hasNextPage` flag of a companies-search response (false when it has
no `data`). -/
@[reducible] def compHasNext (r : CompResponse) : Bool :=
  match r.data with
  | some d => d.companies.pageInfo.hasNextPage
  | none => false

/-- A non-final companies-search page: a `data` payload and `hasNextPage`
true. -/
@[reducible] def CompMidPage (r : CompResponse) : Prop :=
  r.data.isSome = true ∧ compHasNext r = true

/-- A final companies-search page: a `data` payload and `hasNextPage`
false. -/
@[reducible] def CompLastPage (r : CompResponse) : Prop :=
  r.data.isSome = true ∧ compHasNext r = false

/-- The same companies-search response with the `errors` key dropped. -/
def stripCompErrors (r : CompResponse) : CompResponse :=
  { errors := none, data := r.data }

/-- A taxonomy node `{ id name }`. -/
structure Taxonomy where
  id : String
  name : String
deriving DecidableEq

/-- `response["data"]["myOrganisation"]`. -/
structure TaxOrganisation where
  taxonomies : List Taxonomy
deriving DecidableEq

/-- The `data` payload of a taxonomies response. -/
structure TaxData where
  myOrganisation : TaxOrganisation
deriving DecidableEq

/-- A parsed taxonomies response body; as for companies, the code never
reads `errors`. -/
structure TaxResponse where
  errors : Option (List GError)
  data : Option TaxData
deriving DecidableEq

/-- The body of `search_taxonomy`'s `for taxonomy in ...` loop. -/
def addTaxonomy (search : String) (acc : MatchSet) (t : Taxonomy) : MatchSet :=
  let acc1 : MatchSet := { acc with all := acc.all ++ [(t.name, t.id)] }
  if lower t.name == lower search then
    { acc1 with best := acc1.best ++ [(t.name, t.id)] }
  else acc1

/-- `search_taxonomy(client, name)`: one non-paginated call, partitioned the
same way. -/
def search_taxonomy (search : String) (r : TaxResponse) : SearchOutcome :=
  match r.data with
  | none => .dataAccessError
  | some d => .ok (d.myOrganisation.taxonomies.foldl (addTaxonomy search) ⟨[], []⟩)

/-- The same taxonomies response with the `errors` key dropped. -/
def stripTaxErrors (r : TaxResponse) : TaxResponse :=
  { errors := none, data := r.data }

/-! ## Concrete fixtures used to instantiate the theorems -/

/-- A client configuration with the code's default retry policy
(`max_retry_wait = 30`, `max_retries = 3`). -/
def cfgW : Config := ⟨30, 3⟩

/-- A configuration whose retry budget is already exhausted on the first
attempt (`max_retries = 0`). -/
def cfgZero : Config := ⟨30, 0⟩

/-- A 429 response asking for a 7 second wait. -/
def err429a : HTTPError :=
  ⟨"https://api.polecat.com/graphql", 429, "Too Many Requests",
   [("Retry-After", "7")], "ratelimited"⟩

/-- A 429 response asking for a 100 second wait (beyond `max_retry_wait`). -/
def err429b : HTTPError :=
  ⟨"https://api.polecat.com/graphql", 429, "Too Many Requests",
   [("Retry-After", "100")], "ratelimited"⟩

/-- A non-rate-limit HTTP failure. -/
def err500 : HTTPError :=
  ⟨"https://api.polecat.com/graphql", 500, "Internal Server Error", [], "boom"⟩

/-- A 429 response with no Retry-After header. -/
def err429noRA : HTTPError :=
  ⟨"https://api.polecat.com/graphql", 429, "Too Many Requests", [], "ratelimited"⟩

/-- A 429 response whose Retry-After header is not an integer string. -/
def err429badRA : HTTPError :=
  ⟨"https://api.polecat.com/graphql", 429, "Too Many Requests",
   [("Retry-After", "soon")], "ratelimited"⟩

/-- Two rate-limit responses (the second asking beyond the clamp), then
success. -/
def outcomesC2 : Nat → ReqOutcome String :=
  fun i =>
    if i = 0 then .httpErr err429a
    else if i = 1 then .httpErr err429b
    else .success "PAYLOAD"

/-- The error objects of `outcomesC2`. -/
def esC2 : Nat → HTTPError := fun i => if i = 0 then err429a else err429b

/-- The Retry-After values of `outcomesC2`. -/
def wC2 : Nat → Int := fun i => if i = 0 then 7 else 100

/-- Rate-limited on every attempt. -/
def outcomesC3 : Nat → ReqOutcome String := fun _ => .httpErr err429a

/-- One rate-limit response, then a 500. -/
def outcomesC4h : Nat → ReqOutcome String :=
  fun i => if i = 0 then .httpErr err429a else .httpErr err500

/-- A non-HTTPError transport failure on every attempt. -/
def outcomesC4t : Nat → ReqOutcome String := fun _ => .otherErr "URLError"

/-- A 429 with a missing Retry-After header on every attempt. -/
def outcomesC10a : Nat → ReqOutcome String := fun _ => .httpErr err429noRA

/-- A 429 with a malformed Retry-After header on every attempt. -/
def outcomesC10b : Nat → ReqOutcome String := fun _ => .httpErr err429badRA

/-- A document fixture with only scalar fields populated. -/
def mkDoc (i : String) : Document :=
  { id := i, harvestTime := "h", title := "t", domain := "dm", url := "u",
    source := "s", publisher := "p", reach := "re", sentiment := "se",
    author := "a", companies := [], topics := [] }

/-- A documents-query page response fixture. -/
def mkDocPage (docs : List Document) (has_next : Bool) : DocsResponse :=
  { errors := none,
    data := some ⟨⟨docs.map DocEdge.mk, ⟨some "cur", has_next⟩⟩⟩ }

/-- Two non-final pages — the second with zero items — for the pagination
witness. -/
def c1Mids : List DocsResponse :=
  [mkDocPage [mkDoc "d1"] true, mkDocPage [] true]

/-- The final page for the pagination witness. -/
def c1Last : DocsResponse := mkDocPage [mkDoc "d2"] false

/-- A non-final page preceding the defensive no-data response. -/
def c9Mids : List DocsResponse := [mkDocPage [mkDoc "d3"] true]

/-- A response with neither `errors` nor `data`. -/
def c9NoData : DocsResponse := ⟨none, none⟩

/-- A response carrying two GraphQL errors (and no `data`). -/
def c5ErrResp : DocsResponse :=
  ⟨some [⟨"Invalid insight"⟩, ⟨"Date range too large"⟩], none⟩

/-- A companies-search response carrying both an `errors` list and a valid
final `data` page: the code processes it without failing. -/
def c5CompErrResp : CompResponse :=
  ⟨some [⟨"boom"⟩], some ⟨⟨[⟨⟨"c9", "Acme"⟩⟩], ⟨none, false⟩⟩⟩⟩

/-- A taxonomies response carrying both `errors` and `data`. -/
def c5TaxErrResp : TaxResponse :=
  ⟨some [⟨"boom"⟩], some ⟨⟨[⟨"t1", "Tax"⟩]⟩⟩⟩

/-- A document with one focus-matching company, one other company and one
topic, whose field values are pairwise distinct. -/
def docC7 : Document :=
  { id := "d1", harvestTime := "h1", title := "t1", domain := "dm1",
    url := "u1", source := "s1", publisher := "p1", reach := "r1",
    sentiment := "sn1", author := "a1",
    companies := [⟨⟨"c1", "Acme"⟩, "0.9"⟩, ⟨⟨"c2", "Other"⟩, "0.2"⟩],
    topics := [⟨⟨"t9", "Safety"⟩, "0.5"⟩] }

/-- A non-final companies-search page: one case-insensitive exact match and
one non-match. -/
def c8Page1 : CompResponse :=
  ⟨none, some ⟨⟨[⟨⟨"c1", "AcMe"⟩⟩, ⟨⟨"c2", "Other"⟩⟩], ⟨some "cur", true⟩⟩⟩⟩

/-- The final companies-search page: a non-exact match. -/
def c8Page2 : CompResponse :=
  ⟨none, some ⟨⟨[⟨⟨"c3", "Acme Inc"⟩⟩], ⟨none, false⟩⟩⟩⟩

lemma retryFrom_rateLimited_step {α : Type} (cfg : Config)
    (outcomes : Nat → ReqOutcome α) (es : Nat → HTTPError) (w : Nat → Int)
    (attempt remaining : Nat) (sleeps : List Int)
    (h : RateLimited outcomes es w attempt) :
    retryFrom cfg outcomes attempt (remaining + 1) sleeps =
      retryFrom cfg outcomes (attempt + 1) remaining
        (sleeps ++ [min (w attempt) cfg.max_retry_wait]) := by
  obtain ⟨h1, h2, h3⟩ := h
  rw [retryFrom, h1]
  simp only [h2, h3]
  simp

lemma retryFrom_rateLimited_exhausted {α : Type} (cfg : Config)
    (outcomes : Nat → ReqOutcome α) (es : Nat → HTTPError) (w : Nat → Int)
    (attempt : Nat) (sleeps : List Int)
    (h : RateLimited outcomes es w attempt) :
    retryFrom cfg outcomes attempt 0 sleeps =
      ⟨.error (.http (maxRetriesError (es attempt))), sleeps, attempt + 1⟩ := by
  obtain ⟨h1, h2, h3⟩ := h
  rw [retryFrom, h1]
  simp only [h2, h3]
  simp

lemma min_map_range_shift (w : Nat → Int) (c : Int) (a m : Nat) :
    min (w a) c :: (List.range m).map (fun i => min (w (a + 1 + i)) c) =
      (List.range (m + 1)).map (fun i => min (w (a + i)) c) := by
  rw [List.range_succ_eq_map, List.map_cons, List.map_map]
  congr 1
  apply List.map_congr_left
  intro i _
  show min (w (a + 1 + i)) c = min (w (a + (i + 1))) c
  congr 2
  omega

/-- Skipping over `n` consecutive rate-limited attempts: the loop reaches
attempt `attempt + n` having slept the clamped Retry-After value of each. -/
lemma retryFrom_skip429 {α : Type} (cfg : Config)
    (outcomes : Nat → ReqOutcome α) (es : Nat → HTTPError) (w : Nat → Int) :
    ∀ (n attempt remaining : Nat) (sleeps : List Int),
      n ≤ remaining →
      (∀ i, i < n → RateLimited outcomes es w (attempt + i)) →
      retryFrom cfg outcomes attempt remaining sleeps =
        retryFrom cfg outcomes (attempt + n) (remaining - n)
          (sleeps ++ (List.range n).map
            (fun i => min (w (attempt + i)) cfg.max_retry_wait)) := by
  intro n
  induction n with
  | zero => intro attempt remaining sleeps _ _; simp
  | succ m ih =>
    intro attempt remaining sleeps hle hrl
    obtain ⟨r, rfl⟩ : ∃ r, remaining = r + 1 :=
      ⟨remaining - 1, by omega⟩
    rw [retryFrom_rateLimited_step cfg outcomes es w attempt r sleeps
      (by simpa using hrl 0 (Nat.succ_pos m))]
    rw [ih (attempt + 1) r (sleeps ++ [min (w attempt) cfg.max_retry_wait])
      (by omega) (fun i hi => by
        have h := hrl (i + 1) (by omega)
        have heq : attempt + 1 + i = attempt + (i + 1) := by omega
        rw [heq]
        exact h)]
    rw [List.append_assoc, List.singleton_append,
      min_map_range_shift w cfg.max_retry_wait attempt m]
    have h1 : attempt + 1 + m = attempt + (m + 1) := by omega
    have h2 : r - m = r + 1 - (m + 1) := by omega
    rw [h1, h2]

/-! ## Claim theorems: the retry loop -/

/-- C2: for every `N` and every configuration with `max_retries ≥ N`, if
`execute_query_with_retries` receives `N` consecutive HTTP 429 responses
followed by a success, it returns the successful result after exactly `N`
sleeps, where each sleep duration is the server-supplied Retry-After value
clamped (by `min`) to at most `max_retry_wait`. -/
theorem retries_then_success {α : Type} (cfg : Config)
    (outcomes : Nat → ReqOutcome α) (es : Nat → HTTPError) (w : Nat → Int)
    (N : Nat) (r : α)
    (hN : N ≤ cfg.max_retries)
    (h429 : ∀ i, i < N → RateLimited outcomes es w i)
    (hsucc : outcomes N = .success r) :
    execute_query_with_retries cfg outcomes =
      ⟨.ok r, (List.range N).map (fun i => min (w i) cfg.max_retry_wait),
       N + 1⟩ ∧
    ((List.range N).map (fun i => min (w i) cfg.max_retry_wait)).length = N ∧
    ((List.range N).map (fun i => min (w i) cfg.max_retry_wait)).all
      (fun s => s ≤ cfg.max_retry_wait) = true := by
  refine ⟨?_, by simp, ?_⟩
  · unfold execute_query_with_retries
    rw [retryFrom_skip429 cfg outcomes es w N 0 cfg.max_retries [] hN
      (fun i hi => by simpa using h429 i hi)]
    simp only [Nat.zero_add, List.nil_append]
    rw [retryFrom, hsucc]
  · rw [List.all_eq_true]
    intro s hs
    simp only [List.mem_map, List.mem_range] at hs
    obtain ⟨i, _, rfl⟩ := hs
    exact decide_eq_true (min_le_right (w i) cfg.max_retry_wait)

/-- Witness for C2: two rate-limited attempts (asking for 7 s and 100 s)
then a success, under the default config: sleeps `[7, 30]` (the second
clamped from 100), three requests. -/
theorem retries_then_success_witness :
    execute_query_with_retries cfgW outcomesC2 =
      ⟨.ok "PAYLOAD", [7, 30], 3⟩ :=
  ((retries_then_success cfgW outcomesC2 esC2 wC2 2 "PAYLOAD"
    (by decide) (by decide) (by decide)).1).trans (by decide)

/-- C3: on `max_retries + 1` consecutive HTTP 429 responses the call fails
with the "Maximum number of retries exceeded" `HTTPError` carrying the
url, status code, headers and body of the response it was handling, after
exactly `max_retries + 1` requests (the hypotheses constrain only attempts
`i ≤ max_retries`, so nothing beyond the `(max_retries + 1)`-th request is
ever consulted). -/
theorem retry_exhaustion {α : Type} (cfg : Config)
    (outcomes : Nat → ReqOutcome α) (es : Nat → HTTPError) (w : Nat → Int)
    (h429 : ∀ i, i ≤ cfg.max_retries → RateLimited outcomes es w i) :
    execute_query_with_retries cfg outcomes =
      ⟨.error (.http (maxRetriesError (es cfg.max_retries))),
       (List.range cfg.max_retries).map
         (fun i => min (w i) cfg.max_retry_wait),
       cfg.max_retries + 1⟩ := by
  unfold execute_query_with_retries
  rw [retryFrom_skip429 cfg outcomes es w cfg.max_retries 0 cfg.max_retries []
    (le_refl _) (fun i hi => by simpa using h429 i (le_of_lt hi))]
  simp only [Nat.zero_add, List.nil_append, Nat.sub_self]
  exact retryFrom_rateLimited_exhausted cfg outcomes es w cfg.max_retries _
    (h429 cfg.max_retries (le_refl _))

/-- Witness for C3: rate-limited on all four attempts under the default
config: three sleeps, four requests, and the raised error keeps the original
url, code 429, headers and body with the max-retries message. -/
theorem retry_exhaustion_witness :
    execute_query_with_retries cfgW outcomesC3 =
      ⟨.error (.http ⟨"https://api.polecat.com/graphql", 429, maxRetriesMsg,
        [("Retry-After", "7")], "ratelimited"⟩), [7, 7, 7], 4⟩ :=
  (retry_exhaustion cfgW outcomesC3 (fun _ => err429a) (fun _ => 7)
    (by decide)).trans (by decide)

/-- C4: an HTTP error whose status is not 429 — and any non-`HTTPError`
transport failure — propagates on its first occurrence (attempt `k`, after
`k` rate-limited attempts) with no additional sleep and no further request. -/
theorem non_429_propagates {α : Type} (cfg : Config)
    (outcomes : Nat → ReqOutcome α) (es : Nat → HTTPError) (w : Nat → Int)
    (k : Nat) (e : HTTPError) (tag : String)
    (hk : k ≤ cfg.max_retries)
    (hpre : ∀ i, i < k → RateLimited outcomes es w i) :
    (outcomes k = .httpErr e → e.code ≠ 429 →
      execute_query_with_retries cfg outcomes =
        ⟨.error (.http e),
         (List.range k).map (fun i => min (w i) cfg.max_retry_wait),
         k + 1⟩) ∧
    (outcomes k = .otherErr tag →
      execute_query_with_retries cfg outcomes =
        ⟨.error (.otherTransport tag),
         (List.range k).map (fun i => min (w i) cfg.max_retry_wait),
         k + 1⟩) := by
  have base : execute_query_with_retries cfg outcomes =
      retryFrom cfg outcomes k (cfg.max_retries - k)
        ((List.range k).map (fun i => min (w i) cfg.max_retry_wait)) := by
    unfold execute_query_with_retries
    rw [retryFrom_skip429 cfg outcomes es w k 0 cfg.max_retries [] hk
      (fun i hi => by simpa using hpre i hi)]
    simp only [Nat.zero_add, List.nil_append]
  constructor
  · intro he hcode
    rw [base, retryFrom, he]
    simp [hcode]
  · intro ht
    rw [base, retryFrom, ht]

/-- Witness for C4: a 500 after one rate-limited attempt propagates at the
second request with only the earlier sleep; a `URLError`-style failure on
the first attempt propagates with no sleep and a single request. -/
theorem non_429_propagates_witness :
    execute_query_with_retries cfgW outcomesC4h =
      ⟨.error (.http err500), [7], 2⟩ ∧
    execute_query_with_retries cfgW outcomesC4t =
      ⟨.error (.otherTransport "URLError"), [], 1⟩ :=
  ⟨((non_429_propagates cfgW outcomesC4h (fun _ => err429a) (fun _ => 7) 1
      err500 "" (by decide) (by decide)).1 (by decide) (by decide)).trans
      (by decide),
   ((non_429_propagates cfgW outcomesC4t (fun _ => err429a) (fun _ => 7) 0
      err500 "URLError" (by decide) (by decide)).2 (by decide)).trans
      (by decide)⟩

/-- C10: the Retry-After header of a 429 response is read and parsed before
the retry budget is consulted: with a 429 on the first attempt, a missing
header raises `TypeError` and a non-integer header raises `ValueError`, with
no sleep, no retry and no max-retries error — for every configuration,
including one whose budget is already exhausted. -/
theorem retry_after_parsed_before_budget {α : Type} (cfg : Config)
    (outcomes : Nat → ReqOutcome α) (e : HTTPError) (s : String)
    (h0 : outcomes 0 = .httpErr e) (hcode : e.code = 429) :
    (headersGet e.hdrs "Retry-After" = none →
      execute_query_with_retries cfg outcomes =
        ⟨.error .typeError, [], 1⟩) ∧
    (headersGet e.hdrs "Retry-After" = some s → strToInt? s = none →
      execute_query_with_retries cfg outcomes =
        ⟨.error .valueError, [], 1⟩) := by
  constructor
  · intro hh
    unfold execute_query_with_retries
    rw [retryFrom, h0]
    simp [hcode, pyInt, hh]
  · intro hh hs
    unfold execute_query_with_retries
    rw [retryFrom, h0]
    simp [hcode, pyInt, hh, hs]

/-- Witness for C10: under a configuration with `max_retries = 0` — where a
budget-first implementation would raise the max-retries error — a missing
Retry-After header raises `TypeError` and a `"soon"` header raises
`ValueError`, after one request and no sleep. -/
theorem retry_after_parsed_before_budget_witness :
    execute_query_with_retries cfgZero outcomesC10a =
      ⟨.error .typeError, [], 1⟩ ∧
    execute_query_with_retries cfgZero outcomesC10b =
      ⟨.error .valueError, [], 1⟩ :=
  ⟨(retry_after_parsed_before_budget cfgZero outcomesC10a err429noRA ""
      (by decide) (by decide)).1 (by decide),
   (retry_after_parsed_before_budget cfgZero outcomesC10b err429badRA "soon"
      (by decide) (by decide)).2 (by decide) (by decide)⟩

/-! ## Claim theorems: the paginated fetcher -/

lemma get_documents_cons_mid (r : DocsResponse) (rest : List DocsResponse)
    (h : MidPage r) :
    get_documents (r :: rest) =
      (pageBatch r :: (get_documents rest).1, (get_documents rest).2) := by
  obtain ⟨he, hd, hn⟩ := h
  obtain ⟨d, hd'⟩ := Option.isSome_iff_exists.mp hd
  have hn' : d.documents.pageInfo.hasNextPage = true := by
    simpa [pageHasNext, hd'] using hn
  simp [get_documents, he, hd', hn', pageBatch]

lemma get_documents_append_mids (mids rest : List DocsResponse)
    (hmid : ∀ r ∈ mids, MidPage r) :
    get_documents (mids ++ rest) =
      (mids.map pageBatch ++ (get_documents rest).1, (get_documents rest).2) := by
  induction mids with
  | nil => simp
  | cons r ms ih =>
    rw [List.cons_append,
      get_documents_cons_mid r (ms ++ rest) (hmid r (by simp)),
      ih (fun x hx => hmid x (by simp [hx]))]
    simp

/-- C1: over any sequence of pages with no errors and a `data` payload, where
every page but the last has `hasNextPage = true` and the last has
`hasNextPage = false`, `get_documents` yields exactly one batch per page and
ends normally — with no hypothesis whatsoever on the pages' batch sizes, so a
zero-item page with `hasNextPage = true` continues pagination. -/
theorem get_documents_one_batch_per_page (mids : List DocsResponse)
    (last : DocsResponse)
    (hmid : ∀ r ∈ mids, MidPage r) (hlast : LastPage last) :
    get_documents (mids ++ [last]) =
      ((mids ++ [last]).map pageBatch, .finished) ∧
    (get_documents (mids ++ [last])).1.length = mids.length + 1 := by
  have hend : get_documents [last] = ([pageBatch last], .finished) := by
    obtain ⟨he, hd, hn⟩ := hlast
    obtain ⟨d, hd'⟩ := Option.isSome_iff_exists.mp hd
    have hn' : d.documents.pageInfo.hasNextPage = false := by
      simpa [pageHasNext, hd'] using hn
    simp [get_documents, he, hd', hn', pageBatch]
  have key := get_documents_append_mids mids [last] hmid
  rw [hend] at key
  refine ⟨?_, ?_⟩ <;> rw [key] <;> simp

/-- Witness for C1: three pages — one document, then zero documents with
`hasNextPage = true`, then one document on the final page — yield exactly
three batches (the middle one empty) and finish normally. -/
theorem get_documents_one_batch_per_page_witness :
    get_documents (c1Mids ++ [c1Last]) =
      ([[mkDoc "d1"], [], [mkDoc "d2"]], .finished) :=
  ((get_documents_one_batch_per_page c1Mids c1Last
    (by decide) (by decide)).1).trans (by decide)

/-- C9: a response carrying neither `errors` nor `data` makes the generator
stop iterating normally (terminating without raising), yielding no further
batches beyond those of the preceding pages. -/
theorem get_documents_stops_without_data (mids : List DocsResponse)
    (r : DocsResponse) (rest : List DocsResponse)
    (hmid : ∀ x ∈ mids, MidPage x)
    (herr : r.errors = none) (hdata : r.data = none) :
    get_documents (mids ++ r :: rest) = (mids.map pageBatch, .finished) := by
  have hstop : get_documents (r :: rest) = ([], .finished) := by
    simp [get_documents, herr, hdata]
  have key := get_documents_append_mids mids (r :: rest) hmid
  rw [hstop] at key
  simpa using key

/-- Witness for C9: one good page followed by an errorless, dataless
response: the run ends normally with just the first page's batch. -/
theorem get_documents_stops_without_data_witness :
    get_documents (c9Mids ++ c9NoData :: []) = ([[mkDoc "d3"]], .finished) :=
  (get_documents_stops_without_data c9Mids c9NoData []
    (by decide) (by decide) (by decide)).trans (by decide)

/-! ## Claim theorems: the denormalizing writer -/

lemma flatMap_ite_length {β γ : Type} (cs : List β) (p : β → Bool)
    (rows : β → List γ) (n : Nat) (hn : ∀ c, (rows c).length = n) :
    (cs.flatMap (fun c => if p c then rows c else [])).length =
      (cs.filter p).length * n := by
  induction cs with
  | nil => simp
  | cons c cs ih =>
    cases h : p c with
    | true => simp [h, ih, hn c, Nat.succ_mul, Nat.add_comm]
    | false => simp [h, ih]

lemma denormRows_length (d : Document) (focus_id : String) :
    (denormRows d focus_id).length =
      (d.companies.filter (fun c => c.company.id == focus_id)).length *
        d.topics.length := by
  unfold denormRows
  rw [flatMap_ite_length _ _ _ d.topics.length (fun c => by simp)]

lemma compRows_length (d : Document) (focus_id : String) :
    (compRows d focus_id).length =
      (d.companies.filter (fun c => c.company.id == focus_id)).length := by
  unfold compRows
  rw [flatMap_ite_length _ _ _ 1 (fun c => by simp)]
  simp

/-- C6: one call to `write_docs` on a single document with `M` focus-matching
company relations and `T` topics appends exactly 1 row to documents.csv,
`M` rows to documents_companies.csv (the focus matches only), `T` rows to
documents_topics.csv (all topics, unfiltered), and `M * T` rows to
documents_denormalised.csv — the cross product, so duplicate rows are
emitted, not deduplicated, when `M > 1`. -/
theorem write_docs_row_counts (d : Document) (focus_id : String) :
    (write_docs [d] focus_id).docs.length = 1 ∧
    (write_docs [d] focus_id).comps.length =
      (d.companies.filter (fun c => c.company.id == focus_id)).length ∧
    (write_docs [d] focus_id).tops.length = d.topics.length ∧
    (write_docs [d] focus_id).denorm.length =
      (d.companies.filter (fun c => c.company.id == focus_id)).length *
        d.topics.length := by
  refine ⟨by simp [write_docs], ?_, by simp [write_docs, topsRows], ?_⟩
  · simp [write_docs, compRows_length]
  · simp [write_docs, denormRows_length]

/-- C7 counterexample: the claim that every row of all four tables carries
the originating document's id, harvest time, sentiment and reach fails at
`docC7` with focus `"c1"`: the companies and topics rows carry only the
document id. -/
theorem write_docs_core_fields_cex :
    ¬ allRowsShareCoreFields [docC7] "c1" := by decide

lemma mem_denormRows_base (d : Document) (focus_id : String)
    (row : List String) (h : row ∈ denormRows d focus_id) :
    ∃ tail, row = doc_base d ++ tail := by
  unfold denormRows at h
  rw [List.mem_flatMap] at h
  obtain ⟨c, _, hc⟩ := h
  split at hc
  · rw [List.mem_map] at hc
    obtain ⟨t, _, rfl⟩ := hc
    exact ⟨_, rfl⟩
  · simp at hc

lemma mem_compRows_id (d : Document) (focus_id : String)
    (row : List String) (h : row ∈ compRows d focus_id) : d.id ∈ row := by
  unfold compRows at h
  rw [List.mem_flatMap] at h
  obtain ⟨c, _, hc⟩ := h
  split at hc
  · simp at hc
    subst hc
    simp
  · simp at hc

lemma mem_topsRows_id (d : Document) (row : List String)
    (h : row ∈ topsRows d) : d.id ∈ row := by
  unfold topsRows at h
  rw [List.mem_map] at h
  obtain ⟨t, _, rfl⟩ := h
  simp

/-- C7 (amended): every row of documents.csv and documents_denormalised.csv
carries the originating document's four core fields (id, harvest time,
sentiment, reach); the rows of documents_companies.csv and
documents_topics.csv carry only the document id among them. -/
theorem write_docs_core_fields (d : Document) (focus_id : String) :
    (∀ row ∈ (write_docs [d] focus_id).docs, rowHasCoreFields d row) ∧
    (∀ row ∈ (write_docs [d] focus_id).denorm, rowHasCoreFields d row) ∧
    (∀ row ∈ (write_docs [d] focus_id).comps, d.id ∈ row) ∧
    (∀ row ∈ (write_docs [d] focus_id).tops, d.id ∈ row) := by
  refine ⟨?_, ?_, ?_, ?_⟩ <;> intro row hrow <;>
    simp only [write_docs, List.flatMap_cons, List.flatMap_nil,
      List.map_cons, List.map_nil, List.append_nil] at hrow
  · rw [List.mem_singleton] at hrow
    subst hrow
    simp [rowHasCoreFields, docsRow, doc_base]
  · obtain ⟨tail, rfl⟩ := mem_denormRows_base d focus_id row hrow
    simp [rowHasCoreFields, doc_base]
  · exact mem_compRows_id d focus_id row hrow
  · exact mem_topsRows_id d row hrow

/-- Witness for C7 (amended), instantiated at `docC7`: its documents.csv row
carries all four core fields, and its companies row carries the document
id. -/
theorem write_docs_core_fields_witness :
    rowHasCoreFields docC7 (docsRow docC7) ∧
    docC7.id ∈ ["d1", "c1", "Acme", "0.9"] :=
  ⟨(write_docs_core_fields docC7 "c1").1 (docsRow docC7) (by decide),
   (write_docs_core_fields docC7 "c1").2.2.1 ["d1", "c1", "Acme", "0.9"]
     (by decide)⟩

/-! ## Claim theorems: GraphQL error handling and the lookup queries -/

lemma searchCompaniesLoop_strip (search : String) :
    ∀ (rs : List CompResponse) (acc : MatchSet),
      searchCompaniesLoop search (rs.map stripCompErrors) acc =
        searchCompaniesLoop search rs acc := by
  intro rs
  induction rs with
  | nil => intro acc; rfl
  | cons r rest ih =>
    intro acc
    cases hd : r.data with
    | none => simp [searchCompaniesLoop, stripCompErrors, hd]
    | some d => simp [searchCompaniesLoop, stripCompErrors, hd, ih]

/-- C5 (amended): when a documents-query response carries an `errors` list,
`get_documents` fails before reading `data` — the outcome is the same for
every `data` payload and every continuation of the response sequence, so
nothing further is requested or retried — raising the aggregated error that
joins every error's message and carries the raw error payload; the search
consumers, by contrast, never inspect `errors`: `search_companies` and
`search_taxonomy` behave identically when the `errors` key is dropped, and so
do not fail on its presence. -/
theorem graphql_error_handling (mids : List DocsResponse) (r : DocsResponse)
    (errs : List GError) (rest : List DocsResponse)
    (search : String) (crs : List CompResponse) (tr : TaxResponse)
    (hmid : ∀ x ∈ mids, MidPage x) (herr : r.errors = some errs) :
    get_documents (mids ++ r :: rest) =
      (mids.map pageBatch, .graphqlError (joinMessages errs) errs) ∧
    search_companies search crs =
      search_companies search (crs.map stripCompErrors) ∧
    search_taxonomy search tr = search_taxonomy search (stripTaxErrors tr) := by
  refine ⟨?_, ?_, ?_⟩
  · have hstop : get_documents (r :: rest) =
        ([], .graphqlError (joinMessages errs) errs) := by
      simp [get_documents, herr]
    have key := get_documents_append_mids mids (r :: rest) hmid
    rw [hstop] at key
    simpa using key
  · unfold search_companies
    rw [searchCompaniesLoop_strip]
  · rfl

/-- Witness for C5 (amended): a two-error response makes `get_documents`
raise the joined-message aggregate with the raw payload; the search
consumers' results are unchanged by stripping the `errors` key from
responses that carry one. -/
theorem graphql_error_handling_witness :
    get_documents [c5ErrResp] =
      ([], .graphqlError "Invalid insight\n  Date range too large"
        [⟨"Invalid insight"⟩, ⟨"Date range too large"⟩]) ∧
    search_companies "acme" [c5CompErrResp] =
      search_companies "acme" ([c5CompErrResp].map stripCompErrors) ∧
    search_taxonomy "acme" c5TaxErrResp =
      search_taxonomy "acme" (stripTaxErrors c5TaxErrResp) :=
  have h := graphql_error_handling [] c5ErrResp
    [⟨"Invalid insight"⟩, ⟨"Date range too large"⟩] []
    "acme" [c5CompErrResp] c5TaxErrResp (by decide) (by decide)
  ⟨h.1.trans (by decide), h.2.1, h.2.2⟩

/-- C5 counterexample: the claim says every consumer of a page result fails
before attempting to read `data` when the response contains an `errors`
list; but `search_companies`, given a response carrying both `errors` and a
valid `data` page, processes it and returns normally. -/
theorem search_companies_ignores_errors_cex :
    c5CompErrResp.errors = some [⟨"boom"⟩] ∧
    search_companies "acme" [c5CompErrResp] =
      .ok ⟨[("Acme", "c9")], [("Acme", "c9")]⟩ := by decide

lemma foldl_addCompany (search : String) (edges : List CompEdge)
    (acc : MatchSet) :
    edges.foldl (addCompany search) acc =
      ⟨acc.best ++ ((edges.map (·.node)).filter
          (fun n => lower n.name == lower search)).map (fun n => (n.name, n.id)),
       acc.all ++ (edges.map (·.node)).map (fun n => (n.name, n.id))⟩ := by
  induction edges generalizing acc with
  | nil => cases acc; simp
  | cons c cs ih =>
    rw [List.foldl_cons, ih]
    unfold addCompany
    cases h : lower c.node.name == lower search with
    | true => simp [h]
    | false => simp [h]

lemma searchCompaniesLoop_pages (search : String) :
    ∀ (mids : List CompResponse) (last : CompResponse) (acc : MatchSet),
      (∀ r ∈ mids, CompMidPage r) → CompLastPage last →
      searchCompaniesLoop search (mids ++ [last]) acc =
        .ok ⟨acc.best ++ ((companyNodes (mids ++ [last])).filter
               (fun n => lower n.name == lower search)).map
               (fun n => (n.name, n.id)),
             acc.all ++ (companyNodes (mids ++ [last])).map
               (fun n => (n.name, n.id))⟩ := by
  intro mids
  induction mids with
  | nil =>
    intro last acc _ hlast
    obtain ⟨hd, hn⟩ := hlast
    obtain ⟨d, hd'⟩ := Option.isSome_iff_exists.mp hd
    have hn' : d.companies.pageInfo.hasNextPage = false := by
      simpa [compHasNext, hd'] using hn
    simp [searchCompaniesLoop, hd', hn', foldl_addCompany, companyNodes]
  | cons r ms ih =>
    intro last acc hmid hlast
    obtain ⟨hd, hn⟩ := hmid r (by simp)
    obtain ⟨d, hd'⟩ := Option.isSome_iff_exists.mp hd
    have hn' : d.companies.pageInfo.hasNextPage = true := by
      simpa [compHasNext, hd'] using hn
    rw [List.cons_append]
    rw [searchCompaniesLoop.eq_def]
    simp only [hd', hn', if_true]
    rw [foldl_addCompany,
      ih last _ (fun x hx => hmid x (by simp [hx])) hlast]
    simp [companyNodes, hd', List.filter_append, List.map_append,
      List.append_assoc]

/-- C8: `search_companies` partitions every result the API returns into
`all` (every returned (name, id) pair, across all pages, in order) and
`best` (exactly those pairs whose name equals the search term
case-insensitively); in particular, when exactly one returned node matches
case-insensitively, `best` has length 1 and `all` has length at least 1. -/
theorem search_companies_partitions (search : String)
    (mids : List CompResponse) (last : CompResponse)
    (hmid : ∀ r ∈ mids, CompMidPage r) (hlast : CompLastPage last) :
    search_companies search (mids ++ [last]) =
      .ok ⟨((companyNodes (mids ++ [last])).filter
              (fun n => lower n.name == lower search)).map
              (fun n => (n.name, n.id)),
           (companyNodes (mids ++ [last])).map (fun n => (n.name, n.id))⟩ ∧
    (((companyNodes (mids ++ [last])).filter
        (fun n => lower n.name == lower search)).length = 1 →
      (outcomeBest (search_companies search (mids ++ [last]))).length = 1 ∧
      1 ≤ (outcomeAll (search_companies search (mids ++ [last]))).length) := by
  have key := searchCompaniesLoop_pages search mids last ⟨[], []⟩ hmid hlast
  rw [List.nil_append, List.nil_append] at key
  unfold search_companies
  rw [key]
  refine ⟨rfl, ?_⟩
  intro h1
  have hle := List.length_filter_le
    (fun n => lower n.name == lower search) (companyNodes (mids ++ [last]))
  constructor
  · simp [outcomeBest, h1]
  · simp only [outcomeAll, List.length_map]
    omega

/-- Witness for C8: two pages returning three companies, exactly one of
which ("AcMe") equals the query "acme" case-insensitively: `best` is that
single pair and `all` lists all three. -/
theorem search_companies_partitions_witness :
    search_companies "acme" ([c8Page1] ++ [c8Page2]) =
      .ok ⟨[("AcMe", "c1")],
           [("AcMe", "c1"), ("Other", "c2"), ("Acme Inc", "c3")]⟩ ∧
    (outcomeBest (search_companies "acme" ([c8Page1] ++ [c8Page2]))).length = 1 ∧
    1 ≤ (outcomeAll (search_companies "acme" ([c8Page1] ++ [c8Page2]))).length :=
  have h := search_companies_partitions "acme" [c8Page1] c8Page2
    (by decide) (by decide)
  ⟨h.1.trans (by decide), h.2 (by decide)⟩
